import Mathlib

/-!
Verification of the VoiceCommander audio capture / segmentation engine.

Shallow embedding of `scripts/AudioService.py`, `scripts/TranscriptionService.py`
and `scripts/QtTranscriptionService.py`:

* raw PCM byte buffers are `List ℕ` (one entry per byte);
* Python floats carrying times/durations are exact rationals `ℚ`;
* Python's `int()` conversion is truncation toward zero (`pyInt`);
* the hardware stream and recognizer are opaque inputs: every behaviour the
  code branches on (read throws, wrong-size chunk, recognizer final result)
  is a constructor of an explicit outcome type;
* stateful methods become functions `AudioService → ... → result × AudioService`.
-/

/-- `AudioService.FRAME_RATE` (AudioService.py line 4). -/
def FRAME_RATE : ℕ := 16000

/-- `AudioService.CHANNELS` (line 5). -/
def CHANNELS : ℕ := 1

/-- `AudioService.CHUNK` (line 6): frames per hardware read. -/
def CHUNK : ℕ := 8192

/-- `AudioService.BYTES_PER_SAMPLE` (line 7). -/
def BYTES_PER_SAMPLE : ℕ := 2

/-- `AudioService.BYTES_PER_SECOND` (line 8). -/
def BYTES_PER_SECOND : ℕ := BYTES_PER_SAMPLE * FRAME_RATE * CHANNELS

/-- `AudioService.BYTE_ALIGN` (line 9). -/
def BYTE_ALIGN : ℕ := BYTES_PER_SAMPLE * CHANNELS

/-- Python's `int()` applied to a float: truncation toward zero. -/
def pyInt (q : ℚ) : ℤ := if q < 0 then -Int.floor (-q) else Int.floor q

/-- The mutable state of `AudioService` (its `__init__` plus the buffer fields
set by `StartRecording`):  `stream`/`pyaudio` handles are abstracted to the
boolean `has_stream`. -/
structure AudioService where
  device_index : ℤ
  accumulated_data : List ℕ
  accumulated_time : ℚ
  dropped_bytes : ℕ
  dropped_time : ℚ
  is_paused : Bool
  has_stream : Bool
deriving DecidableEq

/-- `MIN_DURATION_SECONDS` local of `ExtractAudioData` (line 297). -/
def MIN_DURATION_SECONDS : ℚ := 1/10

/-- `MIN_BYTES` local of `ExtractAudioData` (line 305). -/
def MIN_BYTES : ℤ := 320

/-- `int((seconds * BYTES_PER_SECOND) / BYTE_ALIGN) * BYTE_ALIGN`: seconds
converted to a byte position rounded down to the sample alignment boundary
(AudioService.py lines 301-302). -/
def alignedBytePos (seconds : ℚ) : ℤ :=
  pyInt (seconds * (BYTES_PER_SECOND : ℚ) / (BYTE_ALIGN : ℚ)) * (BYTE_ALIGN : ℤ)

/-- `AudioService.ExtractAudioData` (AudioService.py lines 295-326).
`int(x)` is `pyInt`, the Python slice `data[a:a+n]` is `(data.drop a).take n`
(both clamp the right end at the list length, and at the point of the slice
`a ≥ 0` and `n ≥ MIN_BYTES > 0` hold).  The Python early `return None` inside
the overrun branch forces the nested `if` structure. -/
def ExtractAudioData (self : AudioService) (start duration : ℚ) : Option (List ℕ) :=
  let duration := if duration < MIN_DURATION_SECONDS then MIN_DURATION_SECONDS else duration
  let startOffset : ℤ := alignedBytePos start
  let bytes_count : ℤ := alignedBytePos duration
  let bytes_count := if bytes_count < MIN_BYTES then MIN_BYTES else bytes_count
  let startOffset := startOffset - (self.dropped_bytes : ℤ)
  let bytes_count' := if startOffset < 0 then bytes_count + startOffset else bytes_count
  let startOffset' := if startOffset < 0 then 0 else startOffset
  if startOffset' + bytes_count' > (self.accumulated_data.length : ℤ) then
    if (self.accumulated_data.length : ℤ) < MIN_BYTES then
      none
    else
      let bytes_count'' := (self.accumulated_data.length : ℤ) - startOffset'
      if bytes_count'' < MIN_BYTES then none
      else some ((self.accumulated_data.drop startOffset'.toNat).take bytes_count''.toNat)
  else
    if bytes_count' < MIN_BYTES then none
    else some ((self.accumulated_data.drop startOffset'.toNat).take bytes_count'.toNat)

example :
    ExtractAudioData ⟨0, List.replicate 400 7, 400/32000, 0, 0, false, true⟩ 0 (3/10) =
      some (List.replicate 400 7) := by
  norm_num [ExtractAudioData, alignedBytePos, pyInt, MIN_BYTES, MIN_DURATION_SECONDS,
    BYTES_PER_SECOND, BYTE_ALIGN, BYTES_PER_SAMPLE, FRAME_RATE, CHANNELS]
  decide

example : pyInt (-(125/512 : ℚ)) = 0 := by
  norm_num [pyInt]

example : pyInt ((1/2 : ℚ) * 32000 / 2) = 8000 := by
  norm_num [pyInt]

/-- Behaviour of the hardware stream during one `ReadChunk` call, abstracted as
an opaque input: `is_active()` raising `OSError`, an inactive stream, the
`read` call raising, or the `read` call returning `data`. -/
inductive StreamOutcome
  | activeThrows
  | inactive
  | readThrows
  | readOk (data : List ℕ)
deriving DecidableEq

/-- `expected_size` local of `ReadChunk` (AudioService.py line 267); also the
size of every silence chunk returned on the error paths (lines 239, 250, 260,
270, 278, 283). -/
def expected_size : ℕ := CHUNK * CHANNELS * BYTES_PER_SAMPLE

/-- The zero-filled chunk `b'\x00' * (CHUNK * CHANNELS * BYTES_PER_SAMPLE)`. -/
def silenceChunk : List ℕ := List.replicate expected_size 0

/-- `AudioService.ReadChunk` (AudioService.py lines 235-283).  Every error
path returns the silence chunk without touching the buffer; `activeThrows`
recreates the stream; a wrong-sized chunk is discarded; a right-sized chunk is
appended and `accumulated_time` advanced by `len(chunk)/BYTES_PER_SECOND`. -/
def ReadChunk (self : AudioService) (outcome : StreamOutcome) : List ℕ × AudioService :=
  if self.is_paused || !self.has_stream then (silenceChunk, self)
  else
    match outcome with
    | .activeThrows => (silenceChunk, { self with has_stream := true })
    | .inactive => (silenceChunk, self)
    | .readThrows => (silenceChunk, self)
    | .readOk chunk_data =>
      if chunk_data.length ≠ expected_size then (silenceChunk, self)
      else (chunk_data,
        { self with
            accumulated_data := self.accumulated_data ++ chunk_data,
            accumulated_time :=
              self.accumulated_time + (chunk_data.length : ℚ) / (BYTES_PER_SECOND : ℚ) })

/-- `AudioService.DropAudioBuffer` (AudioService.py lines 289-293). -/
def DropAudioBuffer (self : AudioService) : AudioService :=
  { self with
      dropped_bytes := self.dropped_bytes + self.accumulated_data.length,
      dropped_time := self.dropped_time + self.accumulated_time,
      accumulated_data := [],
      accumulated_time := 0 }

/-- `AudioService.StartRecording` (AudioService.py lines 160-175): resets the
buffer and drop counters, clears the paused flag and opens a stream. -/
def StartRecording (self : AudioService) : AudioService :=
  { self with
      accumulated_data := [],
      accumulated_time := 0,
      dropped_bytes := 0,
      dropped_time := 0,
      is_paused := false,
      has_stream := true }

/-- `AudioService.StopRecording` (AudioService.py lines 328-343): closes the
stream, tolerating a double stop. -/
def StopRecording (self : AudioService) : AudioService :=
  { self with has_stream := false }

/-- `AudioService.PauseRecording` (AudioService.py lines 196-206). -/
def PauseRecording (self : AudioService) : Bool × AudioService :=
  if self.has_stream && !self.is_paused then (true, { self with is_paused := true })
  else (false, self)

/-- `AudioService.ResumeRecording` (AudioService.py lines 208-233): restart or
recreate the stream; modelled on the successful paths. -/
def ResumeRecording (self : AudioService) : Bool × AudioService :=
  if self.is_paused then (true, { self with is_paused := false, has_stream := true })
  else (true, self)

/-- `AudioService.validate_device_index` (AudioService.py lines 85-107),
returning `false` where the source raises `ValueError`.  `devs` is the host
API's device table: `devs[i]` is device `i`'s `maxInputChannels`. -/
def validate_device_index (devs : List ℤ) (device_index : ℤ) : Bool :=
  if device_index < 0 ∨ (devs.length : ℤ) ≤ device_index then false
  else if devs.getD device_index.toNat 0 ≤ 0 then false
  else true

/-- `AudioService.switch_device` (AudioService.py lines 117-158): validation
failure is caught and returns `False` before any mutation; switching to the
current device is a no-op returning `True`; otherwise the recording is stopped,
the index updated, and the buffer/drop counters and paused flag reset. -/
def switch_device (devs : List ℤ) (self : AudioService) (device_index : ℤ) :
    Bool × AudioService :=
  if validate_device_index devs device_index = false then (false, self)
  else if self.device_index = device_index then (true, self)
  else (true,
    { self with
        device_index := device_index,
        has_stream := false,
        accumulated_data := [],
        accumulated_time := 0,
        dropped_bytes := 0,
        dropped_time := 0,
        is_paused := false })

/-- Frame conditions of `ReadChunk`: the drop counters, paused flag and device
are untouched, and the buffer either stays as it is or grows by exactly the
appended chunk, with `accumulated_time` advanced by that chunk's duration. -/
lemma ReadChunk_effect (s : AudioService) (outcome : StreamOutcome) :
    (ReadChunk s outcome).2.dropped_bytes = s.dropped_bytes ∧
    (ReadChunk s outcome).2.dropped_time = s.dropped_time ∧
    (ReadChunk s outcome).2.is_paused = s.is_paused ∧
    (ReadChunk s outcome).2.device_index = s.device_index ∧
    ∃ app : List ℕ,
      (ReadChunk s outcome).2.accumulated_data = s.accumulated_data ++ app ∧
      (ReadChunk s outcome).2.accumulated_time =
        s.accumulated_time + (app.length : ℚ) / (BYTES_PER_SECOND : ℚ) := by
  cases outcome <;> simp only [ReadChunk] <;> split_ifs <;>
    first
      | exact ⟨rfl, rfl, rfl, rfl, ⟨_, rfl, rfl⟩⟩
      | exact ⟨rfl, rfl, rfl, rfl, ⟨[], by simp, by simp⟩⟩

/-- The aligned start offset shifted left by the dropped-byte count
(AudioService.py line 309), before clamping at zero. -/
def shiftedOffset (self : AudioService) (start : ℚ) : ℤ :=
  alignedBytePos start - (self.dropped_bytes : ℤ)

/-- The start offset `ExtractAudioData` finally slices at: the shifted offset
clamped at zero (line 310-312). -/
def extractStartOffset (self : AudioService) (start : ℚ) : ℤ :=
  max (shiftedOffset self start) 0

/-- The byte count before the available-data clamp: minimum duration enforced,
aligned, raised to `MIN_BYTES`, and reduced by the negative-offset overflow
(lines 296-311). -/
def requestedByteCount (self : AudioService) (start duration : ℚ) : ℤ :=
  let duration := if duration < MIN_DURATION_SECONDS then MIN_DURATION_SECONDS else duration
  let bytes_count := alignedBytePos duration
  let bytes_count := if bytes_count < MIN_BYTES then MIN_BYTES else bytes_count
  bytes_count + min (shiftedOffset self start) 0

/-- The byte count `ExtractAudioData` finally slices with on every path that
returns a slice: the requested count clamped to the available data
(line 314-320). -/
def extractByteCount (self : AudioService) (start duration : ℚ) : ℤ :=
  min (requestedByteCount self start duration)
    ((self.accumulated_data.length : ℤ) - extractStartOffset self start)

/-- Master equation for `ExtractAudioData`: it returns `none` exactly when the
buffer is shorter than `MIN_BYTES` or the clamped byte count falls below
`MIN_BYTES`, and otherwise slices `extractByteCount` bytes starting at
`extractStartOffset`. -/
lemma ExtractAudioData_eq (self : AudioService) (start duration : ℚ) :
    ExtractAudioData self start duration =
      if (self.accumulated_data.length : ℤ) < MIN_BYTES then none
      else if extractByteCount self start duration < MIN_BYTES then none
      else some ((self.accumulated_data.drop (extractStartOffset self start).toNat).take
          (extractByteCount self start duration).toNat) := by
  have hmax : ∀ a : ℤ, (if a < 0 then (0 : ℤ) else a) = max a 0 := by
    intro a; split <;> omega
  have hmin : ∀ b a : ℤ, (if a < 0 then b + a else b) = b + min a 0 := by
    intro b a; split <;> omega
  unfold ExtractAudioData extractByteCount requestedByteCount extractStartOffset shiftedOffset
  simp only [hmax, hmin]
  split_ifs <;>
    first
      | rfl
      | omega
      | (exfalso; omega)
      | (congr 2; omega)

/-- Characterization of every successful `ExtractAudioData` call: the returned
slice starts at `extractStartOffset`, spans `extractByteCount` bytes, that
count meets the 320-byte minimum, and the slice lies inside the buffer. -/
lemma ExtractAudioData_some (self : AudioService) (start duration : ℚ) (sl : List ℕ)
    (h : ExtractAudioData self start duration = some sl) :
    sl = (self.accumulated_data.drop (extractStartOffset self start).toNat).take
        (extractByteCount self start duration).toNat ∧
    MIN_BYTES ≤ extractByteCount self start duration ∧
    0 ≤ extractStartOffset self start ∧
    (extractStartOffset self start).toNat + (extractByteCount self start duration).toNat ≤
      self.accumulated_data.length := by
  rw [ExtractAudioData_eq] at h
  split_ifs at h with hlen hcnt
  rw [Option.some_inj] at h
  have hso : 0 ≤ extractStartOffset self start := le_max_right _ _
  have hle : extractByteCount self start duration ≤
      (self.accumulated_data.length : ℤ) - extractStartOffset self start := min_le_right _ _
  have hM : MIN_BYTES = 320 := rfl
  exact ⟨h.symm, not_lt.mp hcnt, hso, by omega⟩

/-- `ExtractAudioData` never returns anything on a buffer shorter than
`MIN_BYTES` bytes. -/
lemma ExtractAudioData_none_of_short (self : AudioService) (start duration : ℚ)
    (h : (self.accumulated_data.length : ℤ) < MIN_BYTES) :
    ExtractAudioData self start duration = none := by
  rw [ExtractAudioData_eq, if_pos h]

lemma pyInt_of_nonneg (q : ℚ) (h : 0 ≤ q) : pyInt q = Int.floor q := by
  rw [pyInt, if_neg (not_lt.mpr h)]

lemma le_pyInt (n : ℤ) (q : ℚ) (h0 : 0 ≤ n) (h : (n : ℚ) ≤ q) : n ≤ pyInt q := by
  have hq : 0 ≤ q := le_trans (by exact_mod_cast h0) h
  rw [pyInt_of_nonneg q hq]
  exact Int.le_floor.mpr h

lemma slice_length (l : List ℕ) (a b : ℕ) (h : a + b ≤ l.length) :
    ((l.drop a).take b).length = b := by
  simp only [List.length_take, List.length_drop]
  omega

/-- The slice bounds claim C1 states, literally: floor-based rounding of the
start and duration byte positions, shift left by the dropped bytes, clamp a
negative offset to zero while reducing the count by the overflow, and clamp
the count so the slice never exceeds the data length. -/
def claimFloorBounds (dropped dataLen : ℕ) (start duration : ℚ) : ℤ × ℤ :=
  let o0 : ℤ :=
    Int.floor (start * (BYTES_PER_SECOND : ℚ) / (BYTE_ALIGN : ℚ)) * (BYTE_ALIGN : ℤ) -
      (dropped : ℤ)
  let c0 : ℤ := Int.floor (duration * (BYTES_PER_SECOND : ℚ) / (BYTE_ALIGN : ℚ)) * (BYTE_ALIGN : ℤ)
  let o : ℤ := if o0 < 0 then 0 else o0
  let c1 : ℤ := if o0 < 0 then c0 + o0 else c0
  let c : ℤ := if o + c1 > (dataLen : ℤ) then (dataLen : ℤ) - o else c1
  (o, c)

/-- The same bounds with Python `int()` truncation toward zero in place of the
mathematical floor: what the code actually computes (they agree whenever
`start ≥ 0`). -/
def claimTruncBounds (dropped dataLen : ℕ) (start duration : ℚ) : ℤ × ℤ :=
  let o0 : ℤ :=
    pyInt (start * (BYTES_PER_SECOND : ℚ) / (BYTE_ALIGN : ℚ)) * (BYTE_ALIGN : ℤ) - (dropped : ℤ)
  let c0 : ℤ := pyInt (duration * (BYTES_PER_SECOND : ℚ) / (BYTE_ALIGN : ℚ)) * (BYTE_ALIGN : ℤ)
  let o : ℤ := if o0 < 0 then 0 else o0
  let c1 : ℤ := if o0 < 0 then c0 + o0 else c0
  let c : ℤ := if o + c1 > (dataLen : ℤ) then (dataLen : ℤ) - o else c1
  (o, c)

/-- With a requested duration of at least 0.1 s the aligned byte count is at
least 3200, so the `MIN_BYTES` raise in `ExtractAudioData` is inactive. -/
lemma alignedBytePos_ge_3200 (duration : ℚ) (hd : MIN_DURATION_SECONDS ≤ duration) :
    (3200 : ℤ) ≤ alignedBytePos duration := by
  have h16 : ((1600 : ℤ) : ℚ) ≤ duration * (BYTES_PER_SECOND : ℚ) / (BYTE_ALIGN : ℚ) := by
    rw [show ((BYTES_PER_SECOND : ℚ)) = 32000 by norm_num [BYTES_PER_SECOND,
      BYTES_PER_SAMPLE, FRAME_RATE, CHANNELS],
      show ((BYTE_ALIGN : ℚ)) = 2 by norm_num [BYTE_ALIGN, BYTES_PER_SAMPLE, CHANNELS]]
    rw [MIN_DURATION_SECONDS] at hd
    push_cast
    linarith
  have := le_pyInt 1600 _ (by norm_num) h16
  rw [alignedBytePos]
  have hBA : (BYTE_ALIGN : ℤ) = 2 := by norm_num [BYTE_ALIGN, BYTES_PER_SAMPLE, CHANNELS]
  rw [hBA]
  omega

/-- Under the C1 hypothesis `duration ≥ 0.1`, the truncation-based claim
pipeline computes exactly the offset and count `ExtractAudioData` slices
with. -/
lemma claimTruncBounds_eq (self : AudioService) (start duration : ℚ)
    (hd : MIN_DURATION_SECONDS ≤ duration) :
    claimTruncBounds self.dropped_bytes self.accumulated_data.length start duration =
      (extractStartOffset self start, extractByteCount self start duration) := by
  have hbc := alignedBytePos_ge_3200 duration hd
  have hM : MIN_BYTES = 320 := rfl
  have halign : ∀ q : ℚ,
      pyInt (q * (BYTES_PER_SECOND : ℚ) / (BYTE_ALIGN : ℚ)) * (BYTE_ALIGN : ℤ) =
        alignedBytePos q := fun _ => rfl
  simp only [claimTruncBounds, extractStartOffset, extractByteCount, requestedByteCount,
    shiftedOffset, halign]
  rw [if_neg (not_lt.mpr hd)]
  rw [if_neg (by omega : ¬ alignedBytePos duration < MIN_BYTES)]
  simp only [Prod.mk.injEq]
  constructor
  · split_ifs <;> omega
  · split_ifs <;> omega

lemma alignedBytePos_half : alignedBytePos (1/2) = 16000 := by
  norm_num [alignedBytePos, pyInt, BYTES_PER_SECOND, BYTE_ALIGN, BYTES_PER_SAMPLE,
    FRAME_RATE, CHANNELS]

lemma alignedBytePos_threeTenths : alignedBytePos (3/10) = 9600 := by
  norm_num [alignedBytePos, pyInt, BYTES_PER_SECOND, BYTE_ALIGN, BYTES_PER_SAMPLE,
    FRAME_RATE, CHANNELS]

lemma alignedBytePos_smallNeg : alignedBytePos (-(1/65536)) = 0 := by
  norm_num [alignedBytePos, pyInt, BYTES_PER_SECOND, BYTE_ALIGN, BYTES_PER_SAMPLE,
    FRAME_RATE, CHANNELS, Int.floor_eq_iff]

/-- The claim's scenario: on a 2-second (64000-byte) buffer with nothing
dropped, `extract(buffer, 0.5, 0.3)` returns the 9600 bytes at [16000, 25600). -/
lemma extract_scenario (self : AudioService) (hlen : self.accumulated_data.length = 64000)
    (hdrop : self.dropped_bytes = 0) :
    ExtractAudioData self (1/2) (3/10) = some ((self.accumulated_data.drop 16000).take 9600) := by
  have hso : extractStartOffset self (1/2) = 16000 := by
    unfold extractStartOffset shiftedOffset
    rw [alignedBytePos_half, hdrop]
    norm_num
  have hbc : extractByteCount self (1/2) (3/10) = 9600 := by
    simp only [extractByteCount, requestedByteCount, shiftedOffset,
      if_neg (show ¬ (3/10 : ℚ) < MIN_DURATION_SECONDS by norm_num [MIN_DURATION_SECONDS]),
      alignedBytePos_threeTenths, alignedBytePos_half, hdrop, hlen, hso]
    norm_num [MIN_BYTES]
  rw [ExtractAudioData_eq, hso, hbc, hlen]
  norm_num [MIN_BYTES]
  rw [show ((16000 : ℤ).toNat) = 16000 from rfl, show ((9600 : ℤ).toNat) = 9600 from rfl]

/-- A 2-second (64000-byte) buffer with nothing dropped, used to instantiate
the extraction scenarios. -/
def scenarioBuffer : AudioService :=
  ⟨0, List.replicate 64000 0, 2, 0, 0, false, true⟩

lemma scenarioBuffer_length : scenarioBuffer.accumulated_data.length = 64000 := by
  rw [show scenarioBuffer.accumulated_data = List.replicate 64000 0 from rfl,
    List.length_replicate]

/-- C1 (amended): for every call with `duration ≥ 0.1`, any returned slice is
exactly the slice determined by the claim's startOffset/byteCount pipeline,
with Python `int()` truncation toward zero in place of mathematical floor
(the two agree whenever `start ≥ 0`); and in the concrete scenario — a
64000-byte buffer with `dropped_bytes = 0` — `extract(buffer, 0.5, 0.3)`
returns exactly the 9600 bytes at offsets [16000, 25600). -/
theorem extract_trunc_claim_bounds (self : AudioService) (start duration : ℚ)
    (hd : MIN_DURATION_SECONDS ≤ duration) :
    (∀ sl, ExtractAudioData self start duration = some sl →
      sl = (self.accumulated_data.drop
          (claimTruncBounds self.dropped_bytes self.accumulated_data.length
            start duration).1.toNat).take
          (claimTruncBounds self.dropped_bytes self.accumulated_data.length
            start duration).2.toNat) ∧
    (self.accumulated_data.length = 64000 → self.dropped_bytes = 0 →
      ExtractAudioData self (1/2) (3/10) =
          some ((self.accumulated_data.drop 16000).take 9600) ∧
        ((self.accumulated_data.drop 16000).take 9600).length = 9600) := by
  constructor
  · intro sl h
    obtain ⟨hsl, -, -, -⟩ := ExtractAudioData_some self start duration sl h
    rw [claimTruncBounds_eq self start duration hd]
    exact hsl
  · intro hlen hdrop
    refine ⟨extract_scenario self hlen hdrop, ?_⟩
    rw [slice_length]
    omega

/-- Witness for C1's amended theorem at the concrete scenario buffer. -/
theorem extract_trunc_claim_bounds_witness :
    ExtractAudioData scenarioBuffer (1/2) (3/10) =
        some ((scenarioBuffer.accumulated_data.drop 16000).take 9600) ∧
      ((scenarioBuffer.accumulated_data.drop 16000).take 9600).length = 9600 :=
  (extract_trunc_claim_bounds scenarioBuffer (1/2) (3/10)
      (by norm_num [MIN_DURATION_SECONDS])).2
    scenarioBuffer_length rfl

/-- C1 as stated is false: with nothing dropped and `start = -1/65536`
(a representable float), `duration = 0.3`, the code returns 9600 bytes
(Python `int()` truncates `-0.244…` to 0), while the claim's floor-based
pipeline prescribes a byte count of 9598 (floor sends `-0.244…` to -1, the
resulting offset -2 is clamped to 0 and the count reduced by the overflow). -/
theorem extract_floor_claim_refuted :
    (ExtractAudioData scenarioBuffer (-(1/65536)) (3/10)).map List.length = some 9600 ∧
    (claimFloorBounds scenarioBuffer.dropped_bytes scenarioBuffer.accumulated_data.length
      (-(1/65536)) (3/10)).2 = 9598 ∧
    (9600 : ℤ) ≠ 9598 := by
  have hlen : scenarioBuffer.accumulated_data.length = 64000 := scenarioBuffer_length
  have hdrop : scenarioBuffer.dropped_bytes = 0 := rfl
  refine ⟨?_, ?_, by norm_num⟩
  · have hso : extractStartOffset scenarioBuffer (-(1/65536)) = 0 := by
      unfold extractStartOffset shiftedOffset
      rw [alignedBytePos_smallNeg, hdrop]
      norm_num
    have hbc : extractByteCount scenarioBuffer (-(1/65536)) (3/10) = 9600 := by
      simp only [extractByteCount, requestedByteCount, shiftedOffset,
        if_neg (show ¬ (3/10 : ℚ) < MIN_DURATION_SECONDS by norm_num [MIN_DURATION_SECONDS]),
        alignedBytePos_threeTenths, alignedBytePos_smallNeg, hdrop, hlen, hso]
      norm_num [MIN_BYTES]
    rw [ExtractAudioData_eq, hso, hbc, hlen]
    norm_num [MIN_BYTES]
    rw [hlen]
    omega
  · have hfl : Int.floor ((-(1/65536) : ℚ) * (BYTES_PER_SECOND : ℚ) / (BYTE_ALIGN : ℚ)) = -1 := by
      norm_num [BYTES_PER_SECOND, BYTE_ALIGN, BYTES_PER_SAMPLE, FRAME_RATE, CHANNELS,
        Int.floor_eq_iff]
    have hfd : Int.floor (((3:ℚ)/10) * (BYTES_PER_SECOND : ℚ) / (BYTE_ALIGN : ℚ)) = 4800 := by
      norm_num [BYTES_PER_SECOND, BYTE_ALIGN, BYTES_PER_SAMPLE, FRAME_RATE, CHANNELS]
    simp only [claimFloorBounds, hfl, hfd, hlen, hdrop]
    norm_num [BYTE_ALIGN, BYTES_PER_SAMPLE, CHANNELS]

/-- C2: on every buffer whose retained data length and dropped byte count are
sample aligned (which holds for all states reachable by appending valid chunks
and dropping), for every `start ≥ 0` and any duration, `ExtractAudioData`
returns `none` or a slice whose length is a multiple of `BYTE_ALIGN` and at
least `MIN_BYTES = 320` bytes — never a zero-length or below-minimum slice;
and on a buffer holding only 200 bytes it returns `none`.  (The embedding of
`ExtractAudioData` is a pure function of the state, so the call cannot mutate
the buffer.) -/
theorem extract_aligned_min_or_none (self : AudioService) (start duration : ℚ)
    (_hs : 0 ≤ start)
    (hlen : BYTE_ALIGN ∣ self.accumulated_data.length)
    (hdrop : BYTE_ALIGN ∣ self.dropped_bytes) :
    (∀ sl, ExtractAudioData self start duration = some sl →
      BYTE_ALIGN ∣ sl.length ∧ MIN_BYTES ≤ (sl.length : ℤ)) ∧
    (self.accumulated_data.length = 200 → ExtractAudioData self start duration = none) := by
  have hBA : BYTE_ALIGN = 2 := rfl
  have hM : MIN_BYTES = 320 := rfl
  constructor
  · intro sl h
    obtain ⟨hsl, hmin, hso, hsum⟩ := ExtractAudioData_some self start duration sl h
    have hlength : sl.length = (extractByteCount self start duration).toNat := by
      rw [hsl]
      exact slice_length _ _ _ hsum
    have hdrop2 : (2 : ℤ) ∣ (self.dropped_bytes : ℤ) := by
      rw [hBA] at hdrop
      exact_mod_cast hdrop
    have hlen2 : (2 : ℤ) ∣ (self.accumulated_data.length : ℤ) := by
      rw [hBA] at hlen
      exact_mod_cast hlen
    have h2 : (2 : ℤ) ∣ extractByteCount self start duration := by
      have hBAZ : ((BYTE_ALIGN : ℕ) : ℤ) = 2 := by
        norm_num [BYTE_ALIGN, BYTES_PER_SAMPLE, CHANNELS]
      simp only [extractByteCount, requestedByteCount, shiftedOffset, extractStartOffset,
        alignedBytePos, hBAZ]
      split_ifs <;> omega
    constructor
    · rw [hBA, hlength]
      omega
    · rw [hlength]
      omega
  · intro h200
    apply ExtractAudioData_none_of_short
    rw [h200]
    norm_num [MIN_BYTES]

/-- A buffer holding only 200 bytes, below the minimum returned size. -/
def shortBuffer : AudioService :=
  ⟨0, List.replicate 200 0, 200/32000, 0, 0, false, true⟩

lemma shortBuffer_length : shortBuffer.accumulated_data.length = 200 := by
  rw [show shortBuffer.accumulated_data = List.replicate 200 0 from rfl,
    List.length_replicate]

/-- Witness for C2 at the 200-byte buffer and the window 0.0–0.3 s. -/
theorem extract_aligned_min_or_none_witness :
    ExtractAudioData shortBuffer 0 (3/10) = none :=
  (extract_aligned_min_or_none shortBuffer 0 (3/10) le_rfl
      (by rw [shortBuffer_length]; decide) (dvd_zero _)).2 shortBuffer_length

/-- C10: `DropAudioBuffer` conserves the logical stream totals
`dropped_bytes + len(accumulated_data)` and `dropped_time + accumulated_time`,
empties the buffer and zeroes the accumulated time, and a second consecutive
call changes none of the four fields. -/
theorem drop_buffer_conserves (self : AudioService) :
    (DropAudioBuffer self).dropped_bytes + (DropAudioBuffer self).accumulated_data.length =
        self.dropped_bytes + self.accumulated_data.length ∧
    (DropAudioBuffer self).dropped_time + (DropAudioBuffer self).accumulated_time =
        self.dropped_time + self.accumulated_time ∧
    (DropAudioBuffer self).accumulated_data = [] ∧
    (DropAudioBuffer self).accumulated_time = 0 ∧
    DropAudioBuffer (DropAudioBuffer self) = DropAudioBuffer self := by
  refine ⟨by simp [DropAudioBuffer], by simp [DropAudioBuffer], rfl, rfl, ?_⟩
  simp [DropAudioBuffer]

/-- C7: `ReadChunk` is total and always returns a chunk of exactly
`expected_size = 16384` bytes; on every degraded path — paused, no stream,
`is_active` raising, inactive stream, or the read throwing — it returns the
zero-filled chunk and leaves `accumulated_data` and `accumulated_time`
untouched; a successfully read chunk of deviant length is discarded and
replaced by the silence chunk without any state change. -/
theorem read_chunk_total_silence (self : AudioService) (outcome : StreamOutcome) :
    ((ReadChunk self outcome).1.length = expected_size ∧ expected_size = 16384) ∧
    ((self.is_paused = true ∨ self.has_stream = false ∨
        outcome = .activeThrows ∨ outcome = .inactive ∨ outcome = .readThrows) →
      (ReadChunk self outcome).1 = silenceChunk ∧
      (ReadChunk self outcome).2.accumulated_data = self.accumulated_data ∧
      (ReadChunk self outcome).2.accumulated_time = self.accumulated_time) ∧
    (∀ data, outcome = .readOk data → data.length ≠ expected_size →
      (ReadChunk self outcome).1 = silenceChunk ∧ (ReadChunk self outcome).2 = self) := by
  refine ⟨⟨?_, rfl⟩, ?_, ?_⟩
  · cases outcome <;> simp only [ReadChunk] <;> split_ifs <;>
      simp_all [silenceChunk, List.length_replicate]
  · intro h
    by_cases hp : self.is_paused || !self.has_stream
    · simp [ReadChunk, hp]
    · rcases h with h | h | h | h | h
      · exact absurd (by simp [h]) hp
      · exact absurd (by simp [h]) hp
      · subst h; simp [ReadChunk, hp]
      · subst h; simp [ReadChunk, hp]
      · subst h; simp [ReadChunk, hp]
  · intro data hout hlen
    subst hout
    simp only [ReadChunk]
    split_ifs with hp <;> simp_all

/-- Witness for C7: a throwing read on a concrete live state returns the
silence chunk and leaves the buffer untouched. -/
theorem read_chunk_total_silence_witness :
    (ReadChunk shortBuffer .readThrows).1 = silenceChunk ∧
    (ReadChunk shortBuffer .readThrows).2.accumulated_data = shortBuffer.accumulated_data ∧
    (ReadChunk shortBuffer .readThrows).2.accumulated_time = shortBuffer.accumulated_time :=
  (read_chunk_total_silence shortBuffer .readThrows).2.1
    (Or.inr (Or.inr (Or.inr (Or.inr rfl))))

/-- C8: for every invalid device index — negative, beyond the enumerated
range, or resolving to a device without input channels — `switch_device`
returns `False` and leaves the whole service state exactly as it was. -/
theorem switch_device_invalid_noop (devs : List ℤ) (self : AudioService) (device_index : ℤ)
    (h : device_index < 0 ∨ (devs.length : ℤ) ≤ device_index ∨
      devs.getD device_index.toNat 0 ≤ 0) :
    switch_device devs self device_index = (false, self) := by
  have hv : validate_device_index devs device_index = false := by
    unfold validate_device_index
    by_cases h1 : device_index < 0 ∨ (devs.length : ℤ) ≤ device_index
    · rw [if_pos h1]
    · rcases h with h | h | h
      · exact absurd (Or.inl h) h1
      · exact absurd (Or.inr h) h1
      · rw [if_neg h1, if_pos h]
  unfold switch_device
  rw [hv]
  simp

/-- Witness for C8: switching to the negative index -1 with an enumerated
two-device table is rejected without any state change. -/
theorem switch_device_invalid_noop_witness :
    switch_device [1, 0] shortBuffer (-1) = (false, shortBuffer) :=
  switch_device_invalid_noop [1, 0] shortBuffer (-1) (Or.inl (by norm_num))

/-- The buffer/time invariant of the spec: the accumulated time always equals
the retained byte count divided by the byte rate. -/
def BufferTimeInvariant (s : AudioService) : Prop :=
  s.accumulated_time = (s.accumulated_data.length : ℚ) / (BYTES_PER_SECOND : ℚ)

/-- One mutating operation of the audio capture service, as the orchestrator
can invoke them. -/
inductive AudioStep : AudioService → AudioService → Prop
  | start (s : AudioService) : AudioStep s (StartRecording s)
  | read (s : AudioService) (outcome : StreamOutcome) : AudioStep s (ReadChunk s outcome).2
  | drop (s : AudioService) : AudioStep s (DropAudioBuffer s)
  | pause (s : AudioService) : AudioStep s (PauseRecording s).2
  | resume (s : AudioService) : AudioStep s (ResumeRecording s).2
  | stop (s : AudioService) : AudioStep s (StopRecording s)
  | switch (s : AudioService) (devs : List ℤ) (i : ℤ) : AudioStep s (switch_device devs s i).2

/-- Every single operation preserves the buffer/time invariant. -/
lemma AudioStep_preserves (s t : AudioService) (hinv : BufferTimeInvariant s)
    (hstep : AudioStep s t) : BufferTimeInvariant t := by
  have hbps : ((BYTES_PER_SECOND : ℕ) : ℚ) ≠ 0 := by
    norm_num [BYTES_PER_SECOND, BYTES_PER_SAMPLE, FRAME_RATE, CHANNELS]
  cases hstep with
  | start => simp [BufferTimeInvariant, StartRecording]
  | read outcome =>
    obtain ⟨-, -, -, -, app, hdata, htime⟩ := ReadChunk_effect s outcome
    rw [BufferTimeInvariant, hdata, htime, hinv, List.length_append]
    push_cast
    field_simp
  | drop => simp [BufferTimeInvariant, DropAudioBuffer]
  | pause =>
    rw [BufferTimeInvariant, PauseRecording]
    split_ifs <;> exact hinv
  | resume =>
    rw [BufferTimeInvariant, ResumeRecording]
    split_ifs <;> exact hinv
  | stop => exact hinv
  | switch devs i =>
    rw [BufferTimeInvariant, switch_device]
    split_ifs <;> first | exact hinv | simp

/-- C6: the invariant `accumulated_time = len(accumulated_data) /
bytes_per_second` holds in every state reachable from a `StartRecording`
through any sequence of reads, drops, pauses, resumes, stops and device
switches. -/
theorem buffer_time_invariant_reachable (s0 s : AudioService)
    (h : Relation.ReflTransGen AudioStep (StartRecording s0) s) :
    BufferTimeInvariant s := by
  induction h with
  | refl => simp [BufferTimeInvariant, StartRecording]
  | tail _ hstep ih => exact AudioStep_preserves _ _ ih hstep

/-- Witness for C6: a start followed by a buffer drop satisfies the
invariant. -/
theorem buffer_time_invariant_reachable_witness :
    BufferTimeInvariant (DropAudioBuffer (StartRecording shortBuffer)) :=
  buffer_time_invariant_reachable shortBuffer _
    (Relation.ReflTransGen.tail Relation.ReflTransGen.refl (AudioStep.drop _))

/-- The duration of one full chunk: `expected_size / BYTES_PER_SECOND`
seconds (0.512 s). -/
def chunkSeconds : ℚ := (expected_size : ℚ) / (BYTES_PER_SECOND : ℚ)

/-- `N` consecutive `ReadChunk` calls whose hardware reads return `chunks`. -/
def readChunks (self : AudioService) (chunks : List (List ℕ)) : AudioService :=
  chunks.foldl (fun st c => (ReadChunk st (.readOk c)).2) self

/-- On a live unpaused service, consecutive valid reads append exactly the
concatenation of the chunks and touch no other buffer field. -/
lemma readChunks_data (self : AudioService) (chunks : List (List ℕ))
    (hp : self.is_paused = false) (hs : self.has_stream = true)
    (hvalid : ∀ c ∈ chunks, c.length = expected_size) :
    (readChunks self chunks).accumulated_data = self.accumulated_data ++ chunks.flatten ∧
    (readChunks self chunks).dropped_bytes = self.dropped_bytes := by
  induction chunks generalizing self with
  | nil => simp [readChunks]
  | cons c cs ih =>
    have hc : c.length = expected_size := hvalid c (by simp)
    have hstep : (ReadChunk self (.readOk c)).2 =
        { self with
            accumulated_data := self.accumulated_data ++ c,
            accumulated_time :=
              self.accumulated_time + (c.length : ℚ) / (BYTES_PER_SECOND : ℚ) } := by
      simp [ReadChunk, hp, hs, hc]
    have hrec := ih { self with
        accumulated_data := self.accumulated_data ++ c,
        accumulated_time :=
          self.accumulated_time + (c.length : ℚ) / (BYTES_PER_SECOND : ℚ) }
      hp hs (fun d hd => hvalid d (by simp [hd]))
    rw [readChunks, List.foldl_cons, hstep]
    rw [readChunks] at hrec
    rw [hrec.1, hrec.2]
    simp

lemma flatten_length_const (chunks : List (List ℕ)) (k : ℕ)
    (h : ∀ c ∈ chunks, c.length = k) : chunks.flatten.length = chunks.length * k := by
  induction chunks with
  | nil => simp
  | cons c cs ih =>
    have h1 : c.length = k := h c (by simp)
    have h2 : cs.flatten.length = cs.length * k := ih (fun d hd => h d (by simp [hd]))
    simp only [List.flatten_cons, List.length_append, List.length_cons, h1, h2]
    ring

/-- C5: starting from a freshly reset buffer with `dropped_bytes = 0`, the
bytes appended by `N` consecutive successful `ReadChunk` calls, extracted via
`extract(buffer, 0, N * chunkSeconds)`, equal the concatenation of those `N`
chunks. -/
theorem read_extract_roundtrip (s0 : AudioService) (chunks : List (List ℕ))
    (hne : chunks ≠ [])
    (hvalid : ∀ c ∈ chunks, c.length = expected_size) :
    ExtractAudioData (readChunks (StartRecording s0) chunks) 0
        ((chunks.length : ℚ) * chunkSeconds) =
      some chunks.flatten := by
  obtain ⟨hdata, hdropped⟩ := readChunks_data (StartRecording s0) chunks rfl rfl hvalid
  set T := readChunks (StartRecording s0) chunks with hT
  have hdata' : T.accumulated_data = chunks.flatten := by
    rw [hdata]
    simp [StartRecording]
  have hdrop' : T.dropped_bytes = 0 := hdropped.trans rfl
  have hN : 1 ≤ chunks.length := List.length_pos.mpr hne
  have hNQ : (1 : ℚ) ≤ (chunks.length : ℚ) := by exact_mod_cast hN
  have hNZ : (1 : ℤ) ≤ (chunks.length : ℤ) := by exact_mod_cast hN
  have hlenT : T.accumulated_data.length = chunks.length * expected_size := by
    rw [hdata']
    exact flatten_length_const _ _ hvalid
  have hab0 : alignedBytePos 0 = 0 := by norm_num [alignedBytePos, pyInt]
  have hso : extractStartOffset T 0 = 0 := by
    unfold extractStartOffset shiftedOffset
    rw [hab0, hdrop']
    norm_num
  have hdur : ((chunks.length : ℚ) * chunkSeconds) * (BYTES_PER_SECOND : ℚ) / (BYTE_ALIGN : ℚ) =
      (((chunks.length * 8192 : ℕ)) : ℚ) := by
    push_cast
    norm_num [chunkSeconds, expected_size, BYTES_PER_SECOND, BYTE_ALIGN, CHUNK, CHANNELS,
      BYTES_PER_SAMPLE, FRAME_RATE]
    ring
  have habd : alignedBytePos ((chunks.length : ℚ) * chunkSeconds) =
      (chunks.length : ℤ) * 16384 := by
    rw [alignedBytePos, hdur, pyInt_of_nonneg _ (by positivity), Int.floor_natCast]
    rw [show ((BYTE_ALIGN : ℕ) : ℤ) = 2 by norm_num [BYTE_ALIGN, BYTES_PER_SAMPLE, CHANNELS]]
    push_cast
    ring
  have hd01 : ¬ ((chunks.length : ℚ) * chunkSeconds < MIN_DURATION_SECONDS) := by
    rw [not_lt, MIN_DURATION_SECONDS]
    have hcs : chunkSeconds = 64/125 := by
      norm_num [chunkSeconds, expected_size, BYTES_PER_SECOND, CHUNK, CHANNELS,
        BYTES_PER_SAMPLE, FRAME_RATE]
    rw [hcs]
    nlinarith [hNQ]
  have hbc : extractByteCount T 0 ((chunks.length : ℚ) * chunkSeconds) =
      (chunks.length : ℤ) * 16384 := by
    simp only [extractByteCount, requestedByteCount, shiftedOffset, if_neg hd01, habd,
      hab0, hdrop', hlenT, extractStartOffset]
    have hM : MIN_BYTES = 320 := rfl
    have hes : expected_size = 16384 := rfl
    rw [if_neg (by omega : ¬ (chunks.length : ℤ) * 16384 < MIN_BYTES)]
    push_cast [hes]
    omega
  rw [ExtractAudioData_eq, hso, hbc, hdata']
  have hM : MIN_BYTES = 320 := rfl
  have hes : expected_size = 16384 := rfl
  have hflat : (chunks.flatten.length : ℤ) = (chunks.length : ℤ) * 16384 := by
    rw [flatten_length_const _ _ hvalid]
    push_cast [hes]
    ring
  rw [if_neg (by omega : ¬ (chunks.flatten.length : ℤ) < MIN_BYTES)]
  rw [if_neg (by omega : ¬ (chunks.length : ℤ) * 16384 < MIN_BYTES)]
  have htn0 : (0 : ℤ).toNat = 0 := rfl
  have htnN : ((chunks.length : ℤ) * 16384).toNat = chunks.flatten.length := by omega
  rw [htn0, htnN, List.drop_zero, List.take_length]

/-- Witness for C5: one valid silence chunk read back out intact. -/
theorem read_extract_roundtrip_witness :
    ExtractAudioData (readChunks (StartRecording shortBuffer) [silenceChunk]) 0
        ((1 : ℚ) * chunkSeconds) =
      some [silenceChunk].flatten := by
  have h := read_extract_roundtrip shortBuffer [silenceChunk] (by simp)
    (by intro c hc; rw [List.mem_singleton] at hc; rw [hc, silenceChunk, List.length_replicate])
  simpa using h

/-- A word entry of a recognizer final result: `{'start': .., 'end': ..}`. -/
structure RecWord where
  start : ℚ
  endTime : ℚ
deriving DecidableEq

/-- A final recognizer result: the transcription text plus the word-timing
list `result`. -/
structure RecResult where
  text : String
  result : List RecWord
deriving DecidableEq

/-- `INVALID_WORDS` (TranscriptionService.py line 37 and
QtTranscriptionService.py line 27). -/
def INVALID_WORDS : List String := ["", "huh", "uh", "um", "ah", "oh", "eh", "do"]

/-- The utterance start-time heuristic of `TranscriptionService.process_audio`
(lines 195-197): the code tests `end - start > 2.5` although its own comment
says "Don't allow single words longer than 0.5s". -/
def adjustedStartTime (firstWord : RecWord) : ℚ :=
  if firstWord.endTime - firstWord.start > 5/2 then firstWord.endTime - 3/2
  else firstWord.start

/-- The same heuristic in `QtTranscriptionService.process_audio`
(lines 136-138), with the 0.5 s threshold. -/
def qtAdjustedStartTime (firstWord : RecWord) : ℚ :=
  if firstWord.endTime - firstWord.start > 1/2 then firstWord.endTime - 3/2
  else firstWord.start

/-- The state the transcription services carry through one polling step. -/
structure TranscriptionState where
  transcribing_active : Bool
  is_transcribing : Bool
  is_push_to_talk_mode : Bool
  audio : AudioService
deriving DecidableEq

/-- What one `process_audio` polling step produced: its return value, the new
state, the utterance `(start, duration)` handed to `OnSpeechRecognized` (if
any), and whether `recognizer.Reset()` was called. -/
structure ProcessOutcome where
  retVal : Bool
  state : TranscriptionState
  emitted : Option (ℚ × ℚ)
  recognizerReset : Bool
deriving DecidableEq

/-- `TranscriptionService.process_audio` (lines 170-213).  The recognizer is
an opaque input: `recOut = none` models `AcceptWaveform` returning false,
`some r` a final result.  A result with text but an empty word list would
raise `IndexError`, which the handler catches, returning `False`. -/
def process_audio (ts : TranscriptionState) (outcome : StreamOutcome)
    (recOut : Option RecResult) : ProcessOutcome :=
  if ts.transcribing_active = false then ⟨false, ts, none, false⟩
  else if ts.is_transcribing = false then ⟨true, ts, none, false⟩
  else
    let ts1 : TranscriptionState := { ts with audio := (ReadChunk ts.audio outcome).2 }
    match recOut with
    | none => ⟨true, ts1, none, false⟩
    | some r =>
      if ts.is_push_to_talk_mode = true then ⟨true, ts1, none, false⟩
      else if r.text = "" then ⟨true, ts1, none, false⟩
      else if r.text ∈ INVALID_WORDS then ⟨true, ts1, none, false⟩
      else
        match r.result with
        | [] => ⟨false, ts1, none, false⟩
        | w0 :: rest =>
          let textStartTime := adjustedStartTime w0
          let textEndTime := (rest.getLastD w0).endTime
          let textDuration := textEndTime - textStartTime
          ⟨true, { ts1 with audio := DropAudioBuffer ts1.audio },
            some (textStartTime, textDuration), true⟩

/-- `QtTranscriptionService.process_audio` (lines 115-154): no push-to-talk
gate, and the 0.5 s start-time threshold. -/
def qt_process_audio (ts : TranscriptionState) (outcome : StreamOutcome)
    (recOut : Option RecResult) : ProcessOutcome :=
  if ts.transcribing_active = false then ⟨false, ts, none, false⟩
  else if ts.is_transcribing = false then ⟨true, ts, none, false⟩
  else
    let ts1 : TranscriptionState := { ts with audio := (ReadChunk ts.audio outcome).2 }
    match recOut with
    | none => ⟨true, ts1, none, false⟩
    | some r =>
      if r.text = "" then ⟨true, ts1, none, false⟩
      else if r.text ∈ INVALID_WORDS then ⟨true, ts1, none, false⟩
      else
        match r.result with
        | [] => ⟨false, ts1, none, false⟩
        | w0 :: rest =>
          let textStartTime := qtAdjustedStartTime w0
          let textEndTime := (rest.getLastD w0).endTime
          let textDuration := textEndTime - textStartTime
          ⟨true, { ts1 with audio := DropAudioBuffer ts1.audio },
            some (textStartTime, textDuration), true⟩

/-- The arguments `OnSpeechRecognized` passes to `ExtractAudioData`
(TranscriptionService.py line 218 and QtTranscriptionService.py line 159). -/
def onSpeechExtractArgs (textStartTime textDuration : ℚ) : ℚ × ℚ :=
  (textStartTime - 0.25, textDuration + 0.25)

/-- `TranscriptionService.OnSpeechRecognized` (lines 215-227), modelled up to
the transcription hand-off: the audio slice handed to `TranscribeAudio`, or
`none` when the utterance is skipped ("audio sample too short"). -/
def OnSpeechRecognized (audio : AudioService) (textStartTime textDuration : ℚ) :
    Option (List ℕ) :=
  let args := onSpeechExtractArgs textStartTime textDuration
  match ExtractAudioData audio args.1 args.2 with
  | none => none
  | some a => if a.length < 320 then none else some a

/-- `QtTranscriptionService.OnSpeechRecognized` (lines 156-161) hands the
extraction result to `TranscribeAudio` with no `None` or length check. -/
def qtOnSpeechRecognized (audio : AudioService) (textStartTime textDuration : ℚ) :
    Option (List ℕ) :=
  let args := onSpeechExtractArgs textStartTime textDuration
  ExtractAudioData audio args.1 args.2

/-- C3 as stated is false at the concrete utterance (start 0 s, duration 1 s):
the duration argument passed to the extractor is `1 + 0.25`, not the claimed
`1 + 0.5` (the padding is 0.25 s on the leading side only — the window's end
is unchanged). -/
theorem padding_claim_refuted :
    (onSpeechExtractArgs 0 1).1 = 0 - 0.25 ∧
    (onSpeechExtractArgs 0 1).2 = 1 + 0.25 ∧
    ((1 : ℚ) + 0.25) ≠ 1 + 0.5 := by
  refine ⟨rfl, rfl, by norm_num⟩

/-- C3 (amended): on each utterance both services call the extractor with
`start - 0.25` and `duration + 0.25`; `TranscriptionService` skips a `None`
or shorter-than-320-byte result without handing anything to the transcription
collaborator, while `QtTranscriptionService` forwards the extraction result
unchecked. -/
theorem on_speech_extract_padding (audio : AudioService) (s d : ℚ) :
    onSpeechExtractArgs s d = (s - 0.25, d + 0.25) ∧
    (ExtractAudioData audio (s - 0.25) (d + 0.25) = none →
      OnSpeechRecognized audio s d = none) ∧
    (∀ a, OnSpeechRecognized audio s d = some a →
      ExtractAudioData audio (s - 0.25) (d + 0.25) = some a ∧ 320 ≤ a.length) ∧
    qtOnSpeechRecognized audio s d = ExtractAudioData audio (s - 0.25) (d + 0.25) := by
  have hOSR : OnSpeechRecognized audio s d =
      match ExtractAudioData audio (s - 0.25) (d + 0.25) with
      | none => none
      | some a => if a.length < 320 then none else some a := rfl
  refine ⟨rfl, ?_, ?_, rfl⟩
  · intro h
    rw [hOSR, h]
  · intro a ha
    rw [hOSR] at ha
    split at ha
    · exact absurd ha (by simp)
    · rename_i b hsome
      split_ifs at ha with hshort
      injection ha with hba
      subst hba
      exact ⟨hsome, by omega⟩

/-- Witness for C3's amended theorem: on the 200-byte buffer the extractor
returns `None` and `TranscriptionService` skips the utterance. -/
theorem on_speech_extract_padding_witness :
    OnSpeechRecognized shortBuffer 0 1 = none :=
  (on_speech_extract_padding shortBuffer 0 1).2.1
    (ExtractAudioData_none_of_short shortBuffer _ _
      (by rw [shortBuffer_length]; norm_num [MIN_BYTES]))

/-- C4 evidence: for a first word spanning 0.0–1.0 s (`end - start = 1 >
0.5`), `TranscriptionService.process_audio` uses `start = 0` verbatim — its
code tests `> 2.5` although its own comment says 0.5 s — so the emitted
utterance is `(0, 1)`; `QtTranscriptionService` adjusts the start to
`end - 1.5 = -0.5` as the claim states, emitting `(-0.5, 1.5)`. -/
theorem word_threshold_divergence :
    ((1 : ℚ) - 0 > 1/2) ∧
    adjustedStartTime ⟨0, 1⟩ = 0 ∧
    (process_audio ⟨true, true, false, shortBuffer⟩ .readThrows
        (some ⟨"hello", [⟨0, 1⟩]⟩)).emitted = some (0, 1) ∧
    qtAdjustedStartTime ⟨0, 1⟩ = 1 - 3/2 ∧
    (qt_process_audio ⟨true, true, false, shortBuffer⟩ .readThrows
        (some ⟨"hello", [⟨0, 1⟩]⟩)).emitted = some (1 - 3/2, 1 - (1 - 3/2)) := by
  have ha : adjustedStartTime ⟨0, 1⟩ = 0 := by
    norm_num [adjustedStartTime]
  have hq : qtAdjustedStartTime ⟨0, 1⟩ = 1 - 3/2 := by
    norm_num [qtAdjustedStartTime]
  have hhello : ¬ ("hello" ∈ INVALID_WORDS) := by decide
  have hhello2 : ¬ ("hello" = "") := by decide
  refine ⟨by norm_num, ha, ?_, hq, ?_⟩
  · simp only [process_audio, if_neg, hhello, hhello2]
    norm_num [ha, List.getLastD]
  · simp only [qt_process_audio, if_neg, hhello, hhello2]
    norm_num [hq, List.getLastD]

/-- C9: a final recognizer result whose transcription text is in the filler
stoplist is discarded by both services: the step returns `True`, emits no
utterance, does not reset the recognizer, does not drop the buffer, and every
buffer field keeps its prior value apart from the chunk appended by the read
itself. -/
theorem filler_result_discarded (ts : TranscriptionState) (outcome : StreamOutcome)
    (r : RecResult)
    (hact : ts.transcribing_active = true) (htr : ts.is_transcribing = true)
    (hptt : ts.is_push_to_talk_mode = false) (hfill : r.text ∈ INVALID_WORDS) :
    process_audio ts outcome (some r) =
      ⟨true, { ts with audio := (ReadChunk ts.audio outcome).2 }, none, false⟩ ∧
    qt_process_audio ts outcome (some r) =
      ⟨true, { ts with audio := (ReadChunk ts.audio outcome).2 }, none, false⟩ ∧
    (ReadChunk ts.audio outcome).2.dropped_bytes = ts.audio.dropped_bytes ∧
    (ReadChunk ts.audio outcome).2.dropped_time = ts.audio.dropped_time ∧
    ∃ app, (ReadChunk ts.audio outcome).2.accumulated_data =
        ts.audio.accumulated_data ++ app ∧
      (ReadChunk ts.audio outcome).2.accumulated_time =
        ts.audio.accumulated_time + (app.length : ℚ) / (BYTES_PER_SECOND : ℚ) := by
  obtain ⟨h1, h2, -, -, happ⟩ := ReadChunk_effect ts.audio outcome
  refine ⟨?_, ?_, h1, h2, happ⟩
  · by_cases he : r.text = "" <;>
      simp [process_audio, hact, htr, hptt, hfill, he]
  · by_cases he : r.text = "" <;>
      simp [qt_process_audio, hact, htr, hfill, he]

/-- Witness for C9: the filler result "uh" is discarded on a concrete state
with a throwing read. -/
theorem filler_result_discarded_witness :
    process_audio ⟨true, true, false, shortBuffer⟩ .readThrows (some ⟨"uh", [⟨0, 1⟩]⟩) =
      ⟨true, ⟨true, true, false, (ReadChunk shortBuffer .readThrows).2⟩, none, false⟩ :=
  (filler_result_discarded ⟨true, true, false, shortBuffer⟩ .readThrows ⟨"uh", [⟨0, 1⟩]⟩
    rfl rfl rfl (by decide)).1

